import Mathlib

/-!
Verification of the sg-job-extractor pipeline.

Python strings are embedded as lists of characters (`Str`); CPython string
operations used by the code (strip, lower, whitespace collapsing, substring
membership, splitting) are given as executable Lean functions.  Pure pipeline
functions from `src/runner.py`, `src/keywords.py` and `src/excel_writer.py`
are translated directly; connector network calls are abstracted by an
explicit fetch oracle, and side-effectful code is modelled by explicit state
passing.
-/

namespace SGJE

/-- A Python string, embedded as a list of characters. -/
abbrev Str := List Char

/-- Whitespace as treated by CPython's str.strip and the regex class \s. -/
def isSpaceChar (c : Char) : Bool :=
  c == ' ' || c == '\t' || c == '\n' || c == '\r' || c == '\x0b' || c == '\x0c'

/-- ASCII lowercasing of one character, as CPython str.lower on these inputs. -/
def lowerChar (c : Char) : Char :=
  if 65 ≤ c.toNat ∧ c.toNat ≤ 90 then Char.ofNat (c.toNat + 32) else c

/-- Drop leading whitespace. -/
def dropWs (s : Str) : Str := s.dropWhile isSpaceChar

/-- Python str.strip: drop leading and trailing whitespace. -/
def pyStrip (s : Str) : Str := ((dropWs s).reverse.dropWhile isSpaceChar).reverse

/-- State machine for re.sub applied to a whitespace run: the Boolean records
whether the previous character was whitespace, so that each maximal run is
replaced by a single space. -/
def collapseAux : Bool → Str → Str
  | _, [] => []
  | prevWs, c :: cs =>
    if isSpaceChar c then
      if prevWs then collapseAux true cs else ' ' :: collapseAux true cs
    else c :: collapseAux false cs

/-- Replace each maximal whitespace run by a single space. -/
def collapseWs (s : Str) : Str := collapseAux false s

/-- The `_norm` helper of runner.py and keywords.py:
`re.sub(r"\s+", " ", (s or "").strip().lower())`. -/
def normS (s : Str) : Str := collapseWs (pyStrip (s.map lowerChar))

/-- Split a string on a separator character (Python str.split(sep)). -/
def splitOnChar (sep : Char) (s : Str) : List Str :=
  let step := fun (c : Char) (acc : Str × List Str) =>
    if c == sep then ([], acc.1 :: acc.2) else (c :: acc.1, acc.2)
  let r := s.foldr step ([], [])
  r.1 :: r.2

/-- Whitespace-delimited words of an already-normalized string, empty pieces
removed (the list comprehension in build_keyword_sets). -/
def wordsOf (s : Str) : List Str :=
  (splitOnChar ' ' s).filter (fun w => !w.isEmpty)

/-- Is the first string a prefix of the second. -/
def isPrefixL : Str → Str → Bool
  | [], _ => true
  | _ :: _, [] => false
  | x :: xs, y :: ys => x == y && isPrefixL xs ys

/-- Python substring membership: needle in hay. -/
def containsSub (needle : Str) : Str → Bool
  | [] => needle.isEmpty
  | c :: rest => isPrefixL needle (c :: rest) || containsSub needle rest

/-- Python `a or b` on strings: the empty string is falsy. -/
def orEmpty (s fallback : Str) : Str := if s.isEmpty then fallback else s

/-- The "Not stated" sentinel. -/
def notStated : Str := "Not stated".toList

/-- The "Unverified" sentinel. -/
def unverified : Str := "Unverified".toList

/-- The sentinel requirements bullet. -/
def bulletNotStated : Str := "• Not stated".toList

/-- The RawJob dataclass of src/connectors/base.py: one posting as produced
by a connector, every field a string. -/
structure RawJob where
  title : Str
  employer : Str
  url : Str
  source : Str
  posted_date : Str
  closing_date : Str
  requirements : Str
  salary : Str
  job_type : Str
deriving DecidableEq

/-- The per-record dict built by run_search (runner.py lines 300-311), keyed
here by field rather than by header string. -/
structure Row where
  title : Str
  employer : Str
  url : Str
  source : Str
  posted : Str
  closing : Str
  requirements : Str
  salary : Str
  jobType : Str
deriving DecidableEq

/-- The dict construction of runner.py lines 300-311: each connector field is
defaulted to its sentinel through Python `or` when empty, and the source
column records the portal being queried. -/
def toRow (portal : Str) (j : RawJob) : Row :=
  { title := orEmpty j.title notStated
    employer := orEmpty j.employer notStated
    url := orEmpty j.url []
    source := portal
    posted := orEmpty j.posted_date unverified
    closing := orEmpty j.closing_date notStated
    requirements := orEmpty j.requirements bulletNotStated
    salary := orEmpty j.salary notStated
    jobType := orEmpty j.job_type notStated }

/-- Modelled from the spec: employer keywords denoting public, non-profit or
institutional sectors (spec section 4.5, domain component).  The function
compute_relevance is imported by runner.py from src.scoring, but scoring.py
in the repository holds a copy of a FastJobs connector instead, so the scorer
body is reconstructed from the spec's words. -/
def domainSectorWords : List Str :=
  ["government".toList, "community".toList, "foundation".toList,
   "ngo".toList, "hospital".toList]

/-- Modelled from the spec: generic employer markers (spec section 4.5). -/
def domainGenericWords : List Str :=
  ["pte".toList, "ltd".toList, "group".toList, "services".toList]

/-- Modelled from the spec: the title component of the relevance score (spec
section 4.5), capped at 140.  Matching is case-insensitive, which the
embedding realizes by normalizing both sides. -/
def titleScore (title targetRole : Str) (adjacents nearbys : List Str) : Nat :=
  let t := normS title
  let r := normS targetRole
  if containsSub r t then 120
  else if (wordsOf r).all (fun w => containsSub w t) then 100
  else if adjacents.any (fun a => containsSub (normS a) t) then 85
  else if nearbys.any (fun nb => (wordsOf (normS nb)).any (fun w => containsSub w t)) then 60
  else if (wordsOf r).any (fun w => containsSub w t) then 30
  else 0

/-- Modelled from the spec: the employer/domain component of the relevance
score (spec section 4.5), capped at 40. -/
def domainScore (employer : Str) : Nat :=
  let e := normS employer
  if domainSectorWords.any (fun k => containsSub k e) then 40
  else if domainGenericWords.any (fun k => containsSub k e) then 25
  else if !e.isEmpty && e != normS notStated then 10
  else 0

/-- Modelled from the spec: the employment-type component of the relevance
score (spec section 4.5), capped at 20. -/
def empTypeScore (jobType : Str) : Nat :=
  let j := normS jobType
  if containsSub ("full".toList) j then 20
  else if containsSub ("contract".toList) j || containsSub ("temp".toList) j then 15
  else if containsSub ("part".toList) j then 5
  else 0

/-- Modelled from the spec: the relevance scorer, the sum of the three
independently-capped sub-scores clamped to 200 (spec sections 4.5 and 8).
This stands in for the compute_relevance function imported by runner.py,
whose body is absent from the sources (scoring.py holds a stray connector
copy). -/
def compute_relevance (r : Row) (targetRole : Str) (adjacents nearbys : List Str) : Nat :=
  min (titleScore r.title targetRole adjacents nearbys
        + domainScore r.employer + empTypeScore r.jobType) 200

/-- An HTTP response as seen by a connector: status code and body text. -/
structure HttpResp where
  status : Nat
  body : Str
deriving DecidableEq

/-- The network, abstracted: requests.get either raises (error) or returns a
response.  Each connector supplies the URL it builds. -/
abbrev Fetch := Str → Except Str HttpResp

/-- The slugify helper of mycareersfuture.py: lowercase, replace characters
outside [a-z0-9\s-] by spaces, turn whitespace runs into hyphens, strip
hyphens, with "jobs" as fallback for an empty result. -/
def slugify (q : Str) : Str :=
  let s := (pyStrip q).map lowerChar
  let s := s.map (fun c =>
    if ('a' ≤ c ∧ c ≤ 'z') ∨ ('0' ≤ c ∧ c ≤ '9') ∨ isSpaceChar c ∨ c = '-' then c else ' ')
  let s := dashAux false s
  let s := ((s.dropWhile (· == '-')).reverse.dropWhile (· == '-')).reverse
  if s.isEmpty then "jobs".toList else s
where
  /-- re.sub of a whitespace run by a single hyphen. -/
  dashAux : Bool → Str → Str
    | _, [] => []
    | prevWs, c :: cs =>
      if isSpaceChar c then
        if prevWs then dashAux true cs else '-' :: dashAux true cs
      else c :: dashAux false cs

/-- The search URL built by MyCareersFutureConnector.search. -/
def mcfUrl (q : Str) : Str :=
  "https://www.mycareersfuture.gov.sg/search/".toList ++ slugify q ++ "-jobs".toList

/-- MyCareersFutureConnector.search (mycareersfuture.py lines 29-60): the
requests.get call and raise_for_status are not wrapped in try/except, so a
fetch failure or a 4xx/5xx status propagates to the caller; the subsequent
HTML extraction (out of the spec's scope) is abstracted by the parse
parameter, and the per-detail fetches are internally caught so parsing
itself cannot fail. -/
def mcfSearch (fetch : Fetch) (parse : HttpResp → List RawJob)
    (query : Str) (limit : Nat) : Except Str (List RawJob) :=
  match fetch (mcfUrl query) with
  | .error e => .error e
  | .ok r =>
    if 400 ≤ r.status then .error ("HTTPError".toList)
    else .ok ((parse r).take limit)

/-- GrabJobsConnector.search (grabjobs.py lines 24-71): the fetch is wrapped
in try/except returning [], a non-200 status returns [], and every detail
fetch is internally caught, so the call is total. -/
def grabJobsSearch (fetch : Fetch) (parse : HttpResp → List RawJob)
    (query : Str) (limit : Nat) : Except Str (List RawJob) :=
  match fetch ("https://grabjobs.co/singapore/jobs?q=".toList ++ query) with
  | .error _ => .ok []
  | .ok r => if r.status ≠ 200 then .ok [] else .ok ((parse r).take limit)

/-- FastJobsConnector.search (fastjobs.py lines 64-132): same catch-all
structure as GrabJobs. -/
def fastJobsSearch (fetch : Fetch) (parse : HttpResp → List RawJob)
    (query : Str) (limit : Nat) : Except Str (List RawJob) :=
  match fetch ("https://www.fastjobs.sg/singapore-jobs-search/".toList ++ query) with
  | .error _ => .ok []
  | .ok r => if r.status ≠ 200 then .ok [] else .ok ((parse r).take limit)

/-- FounditConnector.search (foundit.py lines 195-237): same catch-all
structure as GrabJobs, with internally caught detail fetches. -/
def founditSearch (fetch : Fetch) (parse : HttpResp → List RawJob)
    (query : Str) (limit : Nat) : Except Str (List RawJob) :=
  match fetch ("https://www.foundit.sg/srp/results?query=".toList ++ query) with
  | .error _ => .ok []
  | .ok r => if r.status ≠ 200 then .ok [] else .ok ((parse r).take limit)

/-- A registered connector from the aggregator's point of view: search takes
the query and the limit and either raises or returns records. -/
abbrev Conn := Str → Nat → Except Str (List RawJob)

/-- The inner append loop of run_search (lines 300-314): records are appended
one at a time and the loop breaks as soon as the accumulated count reaches
the raw cap. -/
def addRows (cap : Nat) : List Row → List Row → List Row
  | rows, [] => rows
  | rows, j :: js =>
    let r := rows ++ [j]
    if cap ≤ r.length then r else addRows cap r js

/-- The per-portal query loop of run_search (lines 292-316): each planned
query triggers one connector call (logged with the record count at call
time), an exception is converted to an empty job list, the portal hit count
accumulates the raw lengths, and the loop stops once the cap is reached. -/
def aggQueries (cap : Nat) (portal : Str) (c : Conn) :
    List (Str × Str) → List Row → List Nat → Nat → List Row × List Nat × Nat
  | [], rows, calls, hits => (rows, calls, hits)
  | (q, _) :: qs, rows, calls, hits =>
    let calls' := calls ++ [rows.length]
    let jobs := match c q 80 with
      | .error _ => []
      | .ok js => js
    let hits' := hits + jobs.length
    let rows' := addRows cap rows (jobs.map (toRow portal))
    if cap ≤ rows'.length then (rows', calls', hits')
    else aggQueries cap portal c qs rows' calls' hits'

/-- The portal loop of run_search (lines 284-320): a portal with no
registered connector records a zero count and the loop continues; otherwise
the first three queries are run, the hit count is recorded, and the loop
stops once the cap is reached. -/
def aggPortals (conns : Str → Option Conn) (queries : List (Str × Str)) (cap : Nat) :
    List Str → List Row → List (Str × Nat) → List Nat →
    List Row × List (Str × Nat) × List Nat
  | [], rows, counts, calls => (rows, counts, calls)
  | p :: ps, rows, counts, calls =>
    match conns p with
    | none => aggPortals conns queries cap ps rows (counts ++ [(p, 0)]) calls
    | some c =>
      let res := aggQueries cap p c (queries.take 3) rows calls 0
      let counts' := counts ++ [(p, res.2.2)]
      if cap ≤ res.1.length then (res.1, counts', res.2.1)
      else aggPortals conns queries cap ps res.1 counts' res.2.1

/-- The aggregation phase of run_search, started from empty accumulators.
Returns the raw rows, the per-portal hit counts, and the log of record
counts observed at each connector call. -/
def aggregate (conns : Str → Option Conn) (queries : List (Str × Str))
    (cap : Nat) (portals : List Str) : List Row × List (Str × Nat) × List Nat :=
  aggPortals conns queries cap portals [] [] []

/-- Wrap one connector so that a raised exception becomes an empty result,
mirroring the try/except of run_search lines 293-296. -/
def sanitizeConn (c : Conn) : Conn := fun q lim =>
  match c q lim with
  | .error _ => .ok []
  | .ok js => .ok js

/-- Wrap every registered connector with sanitizeConn. -/
def sanitizeAll (conns : Str → Option Conn) : Str → Option Conn :=
  fun p => (conns p).map sanitizeConn

/-- The dedupe key of run_search line 344: normalized (title, employer). -/
def rowKey (r : Row) : Str × Str := (normS r.title, normS r.employer)

/-- Has a verifiable posted date: the first component of completeness_key
(runner.py line 336). -/
def verFlag (r : Row) : Nat :=
  if r.posted = unverified ∨ r.posted = [] then 0 else 1

/-- Has a stated closing date (runner.py line 337). -/
def cloFlag (r : Row) : Nat :=
  if r.closing = notStated ∨ r.closing = [] then 0 else 1

/-- Has a stated salary (runner.py line 338). -/
def salFlag (r : Row) : Nat :=
  if r.salary = notStated ∨ r.salary = [] then 0 else 1

/-- completeness_key of run_search (lines 335-340). -/
def ckTuple (r : Row) : Nat × Nat × Nat × Nat :=
  (verFlag r, cloFlag r, salFlag r, (pyStrip r.requirements).length)

/-- Python strict tuple comparison, lexicographic on four naturals. -/
def lex4GT (a b : Nat × Nat × Nat × Nat) : Bool :=
  b.1 < a.1 || (a.1 == b.1 && (b.2.1 < a.2.1 || (a.2.1 == b.2.1 &&
    (b.2.2.1 < a.2.2.1 || (a.2.2.1 == b.2.2.1 && b.2.2.2 < a.2.2.2)))))

/-- Python dict assignment best[k] = r when k is already present: the entry
keeps its position and its value is replaced when the newcomer has a strictly
greater completeness tuple (runner.py line 345). -/
def updIfBetter (k : Str × Str) (r : Row) :
    List ((Str × Str) × Row) → List ((Str × Str) × Row)
  | [] => []
  | (k0, r0) :: rest =>
    if k0 = k then
      (if lex4GT (ckTuple r) (ckTuple r0) then (k0, r) :: rest else (k0, r0) :: rest)
    else (k0, r0) :: updIfBetter k r rest

/-- Does the association list carry the key. -/
def hasKey (best : List ((Str × Str) × Row)) (k : Str × Str) : Bool :=
  best.any (fun kv => kv.1 == k)

/-- One iteration of the dedupe loop (runner.py lines 343-346). -/
def dedupeStep (best : List ((Str × Str) × Row)) (r : Row) :
    List ((Str × Str) × Row) :=
  let k := rowKey r
  if hasKey best k then updIfBetter k r best else best ++ [(k, r)]

/-- The dedupe of run_search (lines 342-348): a Python dict in insertion
order, with list(best.values()) as result. -/
def dedupeRows (rows : List Row) : List Row :=
  (rows.foldl dedupeStep []).map Prod.snd

/-- Numeric value of a decimal digit, none for other characters. -/
def digitVal (c : Char) : Option Nat :=
  if '0' ≤ c ∧ c ≤ '9' then some (c.toNat - 48) else none

/-- Decimal value of a string of digits, none when empty or non-numeric. -/
def natOfDigits : Str → Option Nat
  | [] => none
  | cs => cs.foldl (fun acc c => do
      let a ← acc
      let d ← digitVal c
      pure (a * 10 + d)) (some 0)

/-- Gregorian leap year (datetime). -/
def isLeap (y : Nat) : Bool :=
  (y % 4 == 0 && y % 100 != 0) || y % 400 == 0

/-- Length of a month (datetime). -/
def daysInMonth (y m : Nat) : Nat :=
  if m = 2 then (if isLeap y then 29 else 28)
  else if m = 4 ∨ m = 6 ∨ m = 9 ∨ m = 11 then 30
  else 31

/-- Days in the months before month m of a common year. -/
def daysBeforeMonth (m : Nat) : Nat :=
  [0, 0, 31, 59, 90, 120, 151, 181, 212, 243, 273, 304, 334].getD m 0

/-- date.toordinal: days since 0001-01-01 counted from 1. -/
def toOrdinal (y m d : Nat) : Nat :=
  365 * (y - 1) + ((y - 1) / 4 - (y - 1) / 100) + (y - 1) / 400
    + daysBeforeMonth m + (if isLeap y ∧ 2 < m then 1 else 0) + d

/-- datetime.strptime(s, "%Y-%m-%d").date().toordinal(): the string must be
three dash-separated digit groups (year up to four digits, month and day up
to two) forming a valid calendar date. -/
def parseYMDOrdinal (s : Str) : Option Nat :=
  match splitOnChar '-' s with
  | [ys, ms, ds] => do
    let y ← natOfDigits ys
    let m ← natOfDigits ms
    let d ← natOfDigits ds
    if ys.length ≤ 4 ∧ ms.length ≤ 2 ∧ ds.length ≤ 2
        ∧ 1 ≤ y ∧ y ≤ 9999 ∧ 1 ≤ m ∧ m ≤ 12 ∧ 1 ≤ d ∧ d ≤ daysInMonth y m then
      pure (toOrdinal y m d)
    else none
  | _ => none

/-- The date used by sort_key (runner.py lines 360-363): the parsed posted
date, or 1970-01-01 (ordinal 719163) when parsing fails. -/
def dateOrd (s : Str) : Nat := (parseYMDOrdinal s).getD 719163

/-- A scored record as sorted by run_search: the row dict plus the attached
relevance score. -/
structure SJob where
  row : Row
  score : Nat
deriving DecidableEq

/-- Verifiability flag of sort_key (runner.py line 359): zero exactly for the
"Unverified" sentinel. -/
def sortVer (x : SJob) : Nat := if x.row.posted = unverified then 0 else 1

/-- sort_key of run_search (lines 358-364): negated score, negated
verifiability flag, negated date ordinal, compared lexicographically by the
ascending sort. -/
def sortKeyOf (x : SJob) : Int × Int × Int :=
  (-(x.score : Int), -(sortVer x : Int), -(dateOrd x.row.posted : Int))

/-- Lexicographic order on integer triples, as Python compares tuples. -/
def lex3Le (a b : Int × Int × Int) : Prop :=
  a.1 < b.1 ∨ (a.1 = b.1 ∧ (a.2.1 < b.2.1 ∨ (a.2.1 = b.2.1 ∧ a.2.2 ≤ b.2.2)))

instance : DecidableRel lex3Le := fun a b => by
  unfold lex3Le
  exact inferInstance

/-- The comparison realized by deduped.sort(key=sort_key). -/
def keyLE (a b : SJob) : Prop := lex3Le (sortKeyOf a) (sortKeyOf b)

instance : DecidableRel keyLE := fun a b => by
  unfold keyLE
  exact inferInstance

/-- deduped.sort(key=sort_key): a stable ascending sort by the key, embedded
as a stable insertion sort. -/
def sortRows (rs : List SJob) : List SJob := List.insertionSort keyLE rs

/-- The rank-and-truncate step of run_search (lines 366-368): sort the whole
collection, then take the first max_final records. -/
def rankRows (rs : List SJob) (maxFinal : Nat) : List SJob :=
  (sortRows rs).take maxFinal

/-- Query type tags of build_queries. -/
def exactTag : Str := "Exact".toList

/-- The Adjacent query tag. -/
def adjTag : Str := "Adjacent".toList

/-- The Skill-based query tag. -/
def skillTag : Str := "Skill-based".toList

/-- build_queries of runner.py (lines 252-267). -/
def build_queries (targetRole : Str) (adjacentTitles coreKeywords : List Str) :
    List (Str × Str) :=
  let base := [(targetRole, exactTag)]
  let adjQ := (adjacentTitles.take 3).map (fun t => (t, adjTag))
  let cores := coreKeywords.filter (fun c => !(normS c == normS targetRole))
  let skill :=
    match cores with
    | c0 :: c1 :: _ => [(targetRole ++ ' ' :: c0 ++ ' ' :: c1, skillTag)]
    | [c0] => [(targetRole ++ ' ' :: c0, skillTag)]
    | [] => [(targetRole, skillTag)]
  (base ++ adjQ ++ skill).take 5

/-- JOBS_COLS of excel_writer.py (lines 11-23). -/
def excelWriterJobsCols : List Str :=
  ["Job title available".toList,
   "employer".toList,
   "job post url link".toList,
   "job post from what source".toList,
   "date job post was posted".toList,
   "application closing date".toList,
   "key job requirement".toList,
   "estimated salary".toList,
   "job full-time or part-time".toList,
   "Relevance score".toList,
   "Closing date passed? (Y/N)".toList]

/-- JOBS_COLS of the fallback writer embedded in runner.py (lines 28-40). -/
def fallbackJobsCols : List Str :=
  ["Job title available".toList,
   "employer".toList,
   "job post url link".toList,
   "job post from what source".toList,
   "date job post was posted".toList,
   "application closing date".toList,
   "key job requirement".toList,
   "estimated salary".toList,
   "job full-time or part-time".toList,
   "Relevance score".toList,
   "Closing date passed? (Y/N)".toList]

/-- The semantic role of a report column, in the spec's order (section 6). -/
inductive ColumnRole where
  | title | employer | url | source | posted | closing
  | requirements | salary | jobType | relevance | closingPassed
deriving DecidableEq

/-- Which record field populates a given header, read off the dict keys used
by run_search lines 300-311 and 354-355. -/
def roleOfHeader (c : Str) : Option ColumnRole :=
  if c = "Job title available".toList then some .title
  else if c = "employer".toList then some .employer
  else if c = "job post url link".toList then some .url
  else if c = "job post from what source".toList then some .source
  else if c = "date job post was posted".toList then some .posted
  else if c = "application closing date".toList then some .closing
  else if c = "key job requirement".toList then some .requirements
  else if c = "estimated salary".toList then some .salary
  else if c = "job full-time or part-time".toList then some .jobType
  else if c = "Relevance score".toList then some .relevance
  else if c = "Closing date passed? (Y/N)".toList then some .closingPassed
  else none

/-- The KeywordSets dataclass, identical in runner.py and keywords.py. -/
structure KeywordSets where
  target_role : Str
  core_keywords : List Str
  adjacent_titles : List Str
  nearby_titles : List Str
  exclude_keywords : List Str
deriving DecidableEq

/-- The synonyms table, textually identical in runner.py lines 107-115 and
keywords.py lines 40-48. -/
def synonymsTable : List (Str × List Str) :=
  [("officer".toList, ["executive".toList, "specialist".toList, "coordinator".toList]),
   ("procurement".toList,
    ["sourcing".toList, "purchasing".toList, "vendor management".toList,
     "supplier management".toList, "category management".toList]),
   ("receptionist".toList,
    ["front desk".toList, "front office".toList, "guest services".toList,
     "customer service".toList]),
   ("community".toList, ["engagement".toList, "outreach".toList, "relations".toList]),
   ("partnership".toList,
    ["alliances".toList, "stakeholder".toList, "collaboration".toList,
     "partnerships".toList]),
   ("engineer".toList, ["engineering".toList]),
   ("civil".toList, ["construction".toList, "infrastructure".toList])]

/-- The core-keyword accumulation loop shared by both builders: start from
the trimmed role and extend with the synonyms of each recognized word. -/
def coreOf (tr : Str) (words : List Str) : List Str :=
  words.foldl (fun acc w =>
    match synonymsTable.lookup w with
    | some l => acc ++ l
    | none => acc) [tr]

/-- The order-preserving case-insensitive dedupe of keywords.py (lines
193-201), uncapped: skip entries whose normalization is empty or already
seen. -/
def ddK : List Str → List Str → List Str → List Str
  | [], out, _ => out
  | x :: xs, out, seen =>
    let xn := normS x
    if !xn.isEmpty && !(seen.contains xn) then ddK xs (out ++ [x]) (seen ++ [xn])
    else ddK xs out seen

/-- keywords.py dedupe applied from empty accumulators. -/
def dedupeK (l : List Str) : List Str := ddK l [] []

/-- The capped dedupe embedded in runner.py build_keyword_sets (lines
123-133): same skip rule, with a break once the output reaches the cap;
the cap test runs after each element whether or not it was kept. -/
def ddCap (cap : Nat) : List Str → List Str → List Str → List Str
  | [], out, _ => out
  | x :: xs, out, seen =>
    let xn := normS x
    let keep := !xn.isEmpty && !(seen.contains xn)
    let out' := if keep then out ++ [x] else out
    let seen' := if keep then seen ++ [xn] else seen
    if cap ≤ out'.length then out' else ddCap cap xs out' seen'

/-- runner.py dedupe applied from empty accumulators. -/
def dedupeCap (l : List Str) (cap : Nat) : List Str := ddCap cap l [] []

/-- Receptionist adjacent titles, identical in both builders. -/
def recepAdjacent : List Str :=
  ["Front Desk Officer".toList, "Front Office Executive".toList,
   "Reception Executive".toList, "Clinic Receptionist".toList,
   "Hotel Receptionist".toList, "Guest Service Officer".toList,
   "Administrative Receptionist".toList, "Office Receptionist".toList,
   "Lobby Ambassador".toList, "Concierge (Front Desk)".toList]

/-- Receptionist nearby titles, identical in both builders. -/
def recepNearby : List Str :=
  ["Administrative Assistant".toList, "Office Administrator".toList,
   "Customer Service Officer".toList, "Guest Relations Officer".toList,
   "Admin Coordinator".toList, "Clinic Assistant".toList,
   "Service Desk Officer".toList, "Facilities Coordinator".toList,
   "Call Centre Agent".toList]

/-- Receptionist exclude keywords, identical in both builders. -/
def recepExclude : List Str :=
  ["telemarketer".toList, "commission only".toList]

/-- Procurement adjacent titles, identical in both builders. -/
def procAdjacent : List Str :=
  ["Procurement Executive".toList, "Procurement Specialist".toList,
   "Sourcing Specialist".toList, "Purchasing Officer".toList,
   "Purchasing Executive".toList, "Buyer".toList, "Senior Buyer".toList,
   "Category Executive".toList, "Vendor Management Executive".toList,
   "Procurement Coordinator".toList, "Strategic Sourcing Executive".toList,
   "Supply Chain Procurement Executive".toList]

/-- Procurement nearby titles, identical in both builders. -/
def procNearby : List Str :=
  ["Supply Chain Executive".toList, "Logistics Executive".toList,
   "Operations Executive".toList, "Inventory Planner".toList,
   "Materials Planner".toList, "Contracts Executive".toList,
   "Contract Administrator".toList, "Purchase-to-Pay (P2P) Executive".toList,
   "Vendor Coordinator".toList, "Demand Planner".toList]

/-- Procurement exclude keywords as ordered in runner.py line 194. -/
def procExcludeRunner : List Str :=
  ["software engineer".toList, "developer".toList, "sap developer".toList]

/-- Procurement exclude keywords as ordered in keywords.py line 97. -/
def procExcludeKeywords : List Str :=
  ["sap developer".toList, "software engineer".toList, "developer".toList]

/-- Community-partnership adjacent titles, identical in both builders. -/
def commAdjacent : List Str :=
  ["Community Partnerships Executive".toList, "Partnerships Executive".toList,
   "Community Engagement Executive".toList,
   "Stakeholder Management Executive".toList,
   "Community Outreach Executive".toList, "Partnerships Manager".toList,
   "Strategic Partnerships Executive".toList,
   "Partnership Development Executive".toList,
   "Community Relations Executive".toList,
   "Stakeholder Engagement Officer".toList, "Partnership Officer".toList]

/-- Community-partnership nearby titles, identical in both builders. -/
def commNearby : List Str :=
  ["Programme Executive".toList, "Programme Coordinator".toList,
   "Corporate Relations Executive".toList,
   "Business Development Executive".toList,
   "Account Executive (Partnerships)".toList, "CSR Executive".toList,
   "Events Executive".toList, "Community Development Executive".toList,
   "Stakeholder Relations Officer".toList]

/-- Civil-engineer adjacent titles, present only in keywords.py. -/
def civilAdjacent : List Str :=
  ["Civil Engineer".toList, "Site Engineer (Civil)".toList,
   "Project Engineer (Civil)".toList, "Resident Engineer (Civil)".toList,
   "Civil & Structural Engineer".toList, "Structural Engineer".toList,
   "Geotechnical Engineer".toList, "Construction Engineer".toList,
   "Engineering Executive (Civil)".toList]

/-- Civil-engineer nearby titles, present only in keywords.py. -/
def civilNearby : List Str :=
  ["Project Engineer".toList, "Site Engineer".toList,
   "Quantity Surveyor".toList, "Project Coordinator".toList,
   "Construction Manager".toList, "Project Manager (Construction)".toList,
   "BIM Coordinator".toList, "Safety Officer (Construction)".toList]

/-- Civil-engineer exclude keywords, present only in keywords.py. -/
def civilExclude : List Str :=
  ["software engineer".toList, "network engineer".toList, "it engineer".toList]

/-- The generic fallback adjacent templates, identical in both builders. -/
def genericAdjacent (tr : Str) : List Str :=
  [tr ++ " Executive".toList, tr ++ " Specialist".toList,
   "Senior ".toList ++ tr, "Assistant ".toList ++ tr,
   tr ++ " Coordinator".toList]

/-- The generic fallback nearby titles, identical in both builders. -/
def genericNearby : List Str :=
  ["Operations Executive".toList, "Coordinator".toList,
   "Executive".toList, "Specialist".toList]

/-- build_keyword_sets as embedded in runner.py (lines 103-240): branch order
receptionist, procurement, community-partnership, generic; all four lists
deduplicated with the capped dedupe. -/
def build_keyword_sets_runner (target_role : Str) : KeywordSets :=
  let tr := pyStrip target_role
  let trN := normS tr
  let words := wordsOf trN
  let core := coreOf tr words
  let core_keywords := dedupeCap core 10
  let lists :=
    if containsSub ("receptionist".toList) trN then
      (recepAdjacent, recepNearby, recepExclude)
    else if containsSub ("procurement".toList) trN then
      (procAdjacent, procNearby, procExcludeRunner)
    else if (containsSub ("community".toList) trN
              && containsSub ("partnership".toList) trN)
            || containsSub ("community partnership".toList) trN then
      (commAdjacent, commNearby, [])
    else
      (genericAdjacent tr, genericNearby, [])
  { target_role := tr
    core_keywords := core_keywords
    adjacent_titles := dedupeCap lists.1 20
    nearby_titles := dedupeCap lists.2.1 20
    exclude_keywords := dedupeCap lists.2.2 10 }

/-- build_keyword_sets of keywords.py (lines 31-209): branch order
procurement, receptionist, community-partnership, civil-engineer, generic;
core keywords deduplicated inline then again at return; all caps applied by
list slicing after the uncapped dedupe. -/
def build_keyword_sets_keywords (target_role : Str) : KeywordSets :=
  let tr := pyStrip target_role
  let trN := normS tr
  let words := wordsOf trN
  let core := coreOf tr words
  let core_keywords := dedupeK core
  let lists :=
    if containsSub ("procurement".toList) trN then
      (procAdjacent, procNearby, procExcludeKeywords)
    else if containsSub ("receptionist".toList) trN then
      (recepAdjacent, recepNearby, recepExclude)
    else if (containsSub ("community".toList) trN
              && containsSub ("partnership".toList) trN)
            || containsSub ("community partnership".toList) trN then
      (commAdjacent, commNearby, [])
    else if containsSub ("civil".toList) trN
            && containsSub ("engineer".toList) trN then
      (civilAdjacent, civilNearby, civilExclude)
    else
      (genericAdjacent tr, genericNearby, [])
  { target_role := tr
    core_keywords := (dedupeK core_keywords).take 10
    adjacent_titles := (dedupeK lists.1).take 20
    nearby_titles := (dedupeK lists.2.1).take 20
    exclude_keywords := (dedupeK lists.2.2).take 10 }

/-- Adjacent-tagged entries of a query plan are exactly the first three
adjacent titles, each paired with the Adjacent tag. -/
lemma filter_adj_build_queries (tr : Str) (adj cores : List Str) :
    (build_queries tr adj cores).filter (fun q => q.2 == adjTag) =
      (adj.take 3).map (fun t => (t, adjTag)) := by
  unfold build_queries
  have htag1 : (exactTag == adjTag) = false := by decide
  have htag2 : (skillTag == adjTag) = false := by decide
  have htail : ∀ a b : Str, (a, b) ∈ List.take 3 (adj.map (fun t => (t, adjTag))) →
      b = adjTag := by
    intro a b h
    have h2 := List.take_subset 3 _ h
    simp only [List.mem_map] at h2
    obtain ⟨t, -, ht⟩ := h2
    exact (congrArg Prod.snd ht).symm
  cases hc : cores.filter (fun c => !(normS c == normS tr)) with
  | nil =>
    rw [List.take_of_length_le (by simp [List.length_take])]
    simp [List.filter_append, htag1, htag2, List.filter_map, Function.comp_def]
    exact htail
  | cons c0 rest =>
    cases rest with
    | nil =>
      rw [List.take_of_length_le (by simp [List.length_take])]
      simp [List.filter_append, htag1, htag2, List.filter_map, Function.comp_def]
      exact htail
    | cons c1 rest2 =>
      rw [List.take_of_length_le (by simp [List.length_take])]
      simp [List.filter_append, htag1, htag2, List.filter_map, Function.comp_def]
      exact htail

/-- C7 counterexample: with an empty adjacent-titles list the plan contains
no Adjacent query at all — in particular the target role does not appear as
an Adjacent query — refuting the claimed fallback. -/
theorem empty_adjacent_no_fallback :
    build_queries ("Receptionist".toList) [] [] =
      [(("Receptionist".toList), exactTag), (("Receptionist".toList), skillTag)] ∧
    (("Receptionist".toList), adjTag) ∉ build_queries ("Receptionist".toList) [] [] := by
  constructor
  · rfl
  · decide

/-- C7 (amended): the Adjacent queries of the plan built by build_queries are
exactly the first one to three entries of adjacentTitles; when adjacentTitles
is empty, the plan contains no Adjacent query (there is no fallback — the
target role is still covered by the Exact query). -/
theorem adjacent_queries_from_take3 (tr : Str) (adj cores : List Str) :
    (build_queries tr adj cores).filter (fun q => q.2 == adjTag) =
      (adj.take 3).map (fun t => (t, adjTag)) ∧
    ∀ cs : List Str, (build_queries tr [] cs).filter (fun q => q.2 == adjTag) = [] := by
  exact ⟨filter_adj_build_queries tr adj cores,
    fun cs => filter_adj_build_queries tr [] cs⟩

/-- C1: the relevance scorer returns a value in [0, 200], and is literally
the sum of the three independently-capped sub-scores (title at most 140,
domain at most 40, employment type at most 20) clamped to 200.  The scorer is
modelled from the spec because runner.py imports compute_relevance from
src.scoring while scoring.py holds a stray connector copy. -/
theorem relevance_score_clamped (r : Row) (tr : Str) (adj nb : List Str) :
    compute_relevance r tr adj nb ≤ 200 ∧
    compute_relevance r tr adj nb =
      min (titleScore r.title tr adj nb + domainScore r.employer
            + empTypeScore r.jobType) 200 ∧
    titleScore r.title tr adj nb ≤ 140 ∧
    domainScore r.employer ≤ 40 ∧
    empTypeScore r.jobType ≤ 20 := by
  refine ⟨Nat.min_le_right _ _, rfl, ?_, ?_, ?_⟩
  · unfold titleScore
    dsimp only
    split_ifs <;> omega
  · unfold domainScore
    dsimp only
    split_ifs <;> omega
  · unfold empTypeScore
    dsimp only
    split_ifs <;> omega

/-- C2 (code evaluated at the failing input): when the HTTP GET fails, the
MyCareersFuture connector propagates the exception to its caller instead of
returning an empty sequence, and it also raises on a non-success status,
while the GrabJobs, FastJobs and Foundit connectors convert the same
failures into empty results. -/
theorem mcf_search_propagates_failure :
    mcfSearch (fun _ => .error ("timeout".toList)) (fun _ => [])
        ("receptionist".toList) 80 = .error ("timeout".toList) ∧
    mcfSearch (fun _ => .ok ⟨503, []⟩) (fun _ => [])
        ("receptionist".toList) 80 = .error ("HTTPError".toList) ∧
    grabJobsSearch (fun _ => .error ("timeout".toList)) (fun _ => [])
        ("receptionist".toList) 80 = .ok [] ∧
    fastJobsSearch (fun _ => .error ("timeout".toList)) (fun _ => [])
        ("receptionist".toList) 80 = .ok [] ∧
    founditSearch (fun _ => .error ("timeout".toList)) (fun _ => [])
        ("receptionist".toList) 80 = .ok [] := by
  exact ⟨rfl, rfl, rfl, rfl, rfl⟩

/-- C9: both the primary Excel writer and the runner's fallback writer lay
out the Jobs sheet with the same eleven columns, and reading the headers
back through the runner's record-dict keys yields exactly the spec's column
meanings in the spec's order. -/
theorem report_columns_contract :
    excelWriterJobsCols = fallbackJobsCols ∧
    excelWriterJobsCols.length = 11 ∧
    excelWriterJobsCols.map roleOfHeader =
      [some .title, some .employer, some .url, some .source, some .posted,
       some .closing, some .requirements, some .salary, some .jobType,
       some .relevance, some .closingPassed] := by
  refine ⟨rfl, rfl, by decide⟩

/-- The per-portal query loop cannot tell a raising connector from one that
returns an empty result. -/
lemma aggQueries_sanitize (cap : Nat) (portal : Str) (c : Conn)
    (qs : List (Str × Str)) :
    ∀ rows calls hits,
      aggQueries cap portal (sanitizeConn c) qs rows calls hits =
        aggQueries cap portal c qs rows calls hits := by
  induction qs with
  | nil => intro rows calls hits; rfl
  | cons q qs ih =>
    intro rows calls hits
    obtain ⟨q, t⟩ := q
    have hjobs :
        (match sanitizeConn c q 80 with
          | .error _ => ([] : List RawJob)
          | .ok js => js) =
        (match c q 80 with
          | .error _ => ([] : List RawJob)
          | .ok js => js) := by
      unfold sanitizeConn
      cases c q 80 <;> rfl
    simp only [aggQueries, hjobs]
    split
    · rfl
    · exact ih ..

/-- The portal loop is unchanged when every connector is sanitized. -/
lemma aggPortals_sanitize (conns : Str → Option Conn)
    (queries : List (Str × Str)) (cap : Nat) (portals : List Str) :
    ∀ rows counts calls,
      aggPortals (sanitizeAll conns) queries cap portals rows counts calls =
        aggPortals conns queries cap portals rows counts calls := by
  induction portals with
  | nil => intro rows counts calls; rfl
  | cons p ps ih =>
    intro rows counts calls
    cases hc : conns p with
    | none =>
      have hs : sanitizeAll conns p = none := by simp [sanitizeAll, hc]
      simp only [aggPortals, hc, hs]
      exact ih ..
    | some c =>
      have hs : sanitizeAll conns p = some (sanitizeConn c) := by
        simp [sanitizeAll, hc]
      simp only [aggPortals, hc, hs, aggQueries_sanitize]
      split
      · rfl
      · exact ih ..

/-- C3: a connector exception for one (source, query) call is
indistinguishable from that call returning no records — the aggregation
result (rows, per-source counts and call log) is unchanged when every
connector is wrapped to return an empty result instead of raising — and a
selected source with no registered connector records a zero count and the
portal loop proceeds with the remaining sources. -/
theorem aggregation_isolates_failures :
    (∀ (conns : Str → Option Conn) (queries : List (Str × Str)) (cap : Nat)
       (portals : List Str),
      aggregate conns queries cap portals =
        aggregate (sanitizeAll conns) queries cap portals) ∧
    (∀ (conns : Str → Option Conn) (queries : List (Str × Str)) (cap : Nat)
       (p : Str) (ps : List Str) (rows : List Row)
       (counts : List (Str × Nat)) (calls : List Nat),
      conns p = none →
      aggPortals conns queries cap (p :: ps) rows counts calls =
        aggPortals conns queries cap ps rows (counts ++ [(p, 0)]) calls) := by
  constructor
  · intro conns queries cap portals
    exact (aggPortals_sanitize conns queries cap portals [] [] []).symm
  · intro conns queries cap p ps rows counts calls h
    simp only [aggPortals, h]

/-- A raw job used by concrete aggregation scenarios. -/
def wJob : RawJob :=
  { title := "T".toList, employer := "E".toList, url := "u".toList
    source := "s".toList, posted_date := [], closing_date := []
    requirements := [], salary := [], job_type := [] }

/-- A registry mapping every portal to a connector that returns three
records. -/
def wConns : Str → Option Conn := fun _ => some (fun _ _ => .ok [wJob, wJob, wJob])

/-- A one-query plan for concrete aggregation scenarios. -/
def wQueries : List (Str × Str) := [("q".toList, exactTag)]

/-- A single selected portal for concrete aggregation scenarios. -/
def wPortals : List Str := ["P".toList]

/-- Witness for C3: with no registered connector for the only selected
portal, its count is recorded as zero and the run proceeds. -/
theorem aggregation_isolates_failures_witness :
    aggregate (fun _ => none) wQueries 5 wPortals =
      aggregate (sanitizeAll (fun _ => none)) wQueries 5 wPortals ∧
    aggPortals (fun _ => none) wQueries 5 wPortals [] [] [] =
      aggPortals (fun _ => none) wQueries 5 [] [] [(("P".toList), 0)] [] :=
  ⟨aggregation_isolates_failures.1 (fun _ => none) wQueries 5 wPortals,
   by
    have h := aggregation_isolates_failures.2 (fun _ => none) wQueries 5
      ("P".toList) [] [] [] [] rfl
    simpa using h⟩

/-- The inner append loop never grows the accumulator past the cap when it
starts below the cap. -/
lemma addRows_le (cap : Nat) (js : List Row) :
    ∀ rows : List Row, rows.length < cap → (addRows cap rows js).length ≤ cap := by
  induction js with
  | nil => intro rows h; exact Nat.le_of_lt h
  | cons j js ih =>
    intro rows h
    simp only [addRows]
    split
    · simpa using h
    · exact ih (rows ++ [j]) (by simp at *; omega)

/-- Invariant of the query loop: starting below the cap, the accumulated
rows never exceed the cap and every logged call was issued below the cap. -/
lemma aggQueries_inv (cap : Nat) (portal : Str) (c : Conn)
    (qs : List (Str × Str)) :
    ∀ rows calls hits, rows.length < cap → (∀ n ∈ calls, n < cap) →
      (aggQueries cap portal c qs rows calls hits).1.length ≤ cap ∧
      ∀ n ∈ (aggQueries cap portal c qs rows calls hits).2.1, n < cap := by
  induction qs with
  | nil => intro rows calls hits h hc; exact ⟨Nat.le_of_lt h, hc⟩
  | cons q qs ih =>
    intro rows calls hits h hc
    obtain ⟨q, t⟩ := q
    have hcalls : ∀ n ∈ calls ++ [rows.length], n < cap := by
      intro n hn
      rcases List.mem_append.mp hn with hn | hn
      · exact hc n hn
      · simp at hn; omega
    have hrows := addRows_le cap
      ((match c q 80 with | .error _ => [] | .ok js => js).map (toRow portal)) rows h
    simp only [aggQueries]
    split
    · exact ⟨hrows, hcalls⟩
    · next hlt =>
      exact ih _ _ _ (by omega) hcalls

/-- Invariant of the portal loop: starting below the cap, the accumulated
rows never exceed the cap and every logged call was issued below the cap. -/
lemma aggPortals_inv (conns : Str → Option Conn) (queries : List (Str × Str))
    (cap : Nat) (portals : List Str) :
    ∀ rows counts calls, rows.length < cap → (∀ n ∈ calls, n < cap) →
      (aggPortals conns queries cap portals rows counts calls).1.length ≤ cap ∧
      ∀ n ∈ (aggPortals conns queries cap portals rows counts calls).2.2, n < cap := by
  induction portals with
  | nil => intro rows counts calls h hc; exact ⟨Nat.le_of_lt h, hc⟩
  | cons p ps ih =>
    intro rows counts calls h hc
    cases hcp : conns p with
    | none =>
      simp only [aggPortals, hcp]
      exact ih _ _ _ h hc
    | some c =>
      have hq := aggQueries_inv cap p c (queries.take 3) rows calls 0 h hc
      simp only [aggPortals, hcp]
      split
      · exact hq
      · next hlt =>
        exact ih _ _ _ (by omega) hq.2

/-- C4 (amended): provided rawCap is at least one, the accumulated raw
collection never holds more than rawCap records, and every connector call is
issued while the accumulated count is still strictly below rawCap — so once
the count reaches rawCap no further connector call is made by either loop. -/
theorem raw_cap_bounds_aggregation (conns : Str → Option Conn)
    (queries : List (Str × Str)) (portals : List Str) (cap : Nat)
    (h : 1 ≤ cap) :
    (aggregate conns queries cap portals).1.length ≤ cap ∧
    ∀ n ∈ (aggregate conns queries cap portals).2.2, n < cap := by
  exact aggPortals_inv conns queries cap portals [] [] [] (by simpa using h)
    (by simp)

/-- Witness for C4 (amended): three available records, cap two — the
collection stops at two records and both logged calls happened below the
cap. -/
theorem raw_cap_bounds_aggregation_witness :
    1 ≤ 2 ∧
    ((aggregate wConns wQueries 2 wPortals).1.length ≤ 2 ∧
      ∀ n ∈ (aggregate wConns wQueries 2 wPortals).2.2, n < 2) :=
  ⟨by decide, raw_cap_bounds_aggregation wConns wQueries wPortals 2 (by decide)⟩

/-- C4 counterexample: with rawCap = 0 the count has already reached the cap
before any call, yet a connector call is still issued (the log records a
call at count 0) and the collection ends up holding one record, more than
rawCap — so the claim fails as stated for rawCap = 0. -/
theorem raw_cap_zero_counterexample :
    0 < (aggregate wConns wQueries 0 wPortals).1.length ∧
    (aggregate wConns wQueries 0 wPortals).2.2 = [0] := by
  constructor
  · decide
  · decide

/-- A record with a real closing date but an unverifiable posted date. -/
def cexClosing : Row :=
  { title := "Community Partnerships Executive".toList
    employer := "ABC Foundation".toList, url := "u1".toList
    source := "S".toList, posted := unverified
    closing := "2025-01-01".toList, requirements := bulletNotStated
    salary := notStated, jobType := notStated }

/-- A record with the same key, a verifiable posted date, and no stated
closing date. -/
def cexVerified : Row :=
  { title := "Community Partnerships Executive".toList
    employer := "ABC Foundation".toList, url := "u2".toList
    source := "S".toList, posted := "2024-01-01".toList
    closing := notStated, requirements := bulletNotStated
    salary := notStated, jobType := notStated }

/-- A record with a verifiable posted date and a real closing date. -/
def wClosingA : Row :=
  { title := "Receptionist".toList, employer := "Clinic".toList
    url := "a".toList, source := "S".toList
    posted := "2024-02-02".toList, closing := "2025-05-05".toList
    requirements := bulletNotStated, salary := notStated
    jobType := notStated }

/-- A record sharing the key of wClosingA, also with a verifiable posted
date, but with the "Not stated" closing sentinel. -/
def wClosingB : Row :=
  { title := "Receptionist".toList, employer := "Clinic".toList
    url := "b".toList, source := "S".toList
    posted := "2024-03-03".toList, closing := notStated
    requirements := bulletNotStated, salary := notStated
    jobType := notStated }

/-- C5 counterexample: two records with the same key where the one lacking a
real closing date has a verifiable posted date — the completeness tuple
compares the posted-date flag first, so dedupe keeps the record whose
closing date is "Not stated", in both presentation orders. -/
theorem dedupe_closing_date_counterexample :
    (dedupeRows [cexClosing, cexVerified] = [cexVerified] ∧
      dedupeRows [cexVerified, cexClosing] = [cexVerified]) ∧
    rowKey cexClosing = rowKey cexVerified ∧
    cloFlag cexClosing = 1 ∧ cloFlag cexVerified = 0 := by
  refine ⟨⟨?_, ?_⟩, ?_, ?_, ?_⟩ <;> decide

/-- C5 (amended): for two records with identical normalized (title,
employer) keys and the same has-verifiable-posted-date flag (the first
completeness component, which is compared before the closing-date flag),
where one has a real closing date and the other carries the "Not stated"
sentinel, dedupe keeps the record with the real closing date, whichever
order the records arrive in. -/
theorem dedupe_keeps_real_closing_date (a b : Row)
    (hk : rowKey a = rowKey b) (hv : verFlag a = verFlag b)
    (hca : cloFlag a = 1) (hcb : cloFlag b = 0) :
    dedupeRows [a, b] = [a] ∧ dedupeRows [b, a] = [a] := by
  have hgt : lex4GT (ckTuple a) (ckTuple b) = true := by
    simp [lex4GT, ckTuple, hv, hca, hcb]
  have hngt : lex4GT (ckTuple b) (ckTuple a) = false := by
    simp [lex4GT, ckTuple, hv, hca, hcb]
  constructor
  · simp [dedupeRows, dedupeStep, hasKey, updIfBetter, hk, hngt]
  · simp [dedupeRows, dedupeStep, hasKey, updIfBetter, hk, hgt]

/-- Witness for C5 (amended): concrete records sharing a key, both with
verifiable posted dates, one with a real closing date. -/
theorem dedupe_keeps_real_closing_date_witness :
    rowKey wClosingA = rowKey wClosingB ∧ verFlag wClosingA = verFlag wClosingB ∧
    cloFlag wClosingA = 1 ∧ cloFlag wClosingB = 0 ∧
    (dedupeRows [wClosingA, wClosingB] = [wClosingA] ∧
      dedupeRows [wClosingB, wClosingA] = [wClosingA]) :=
  ⟨by decide, by decide, by decide, by decide,
    dedupe_keeps_real_closing_date wClosingA wClosingB
      (by decide) (by decide) (by decide) (by decide)⟩

/-- Unfolding equation for one dedupe step. -/
lemma dedupeStep_eq (best : List ((Str × Str) × Row)) (r : Row) :
    dedupeStep best r =
      if hasKey best (rowKey r) then updIfBetter (rowKey r) r best
      else best ++ [(rowKey r, r)] := rfl

/-- In-place update keeps the key sequence of the association list. -/
lemma updIfBetter_keys (k : Str × Str) (r : Row) :
    ∀ l : List ((Str × Str) × Row),
      (updIfBetter k r l).map Prod.fst = l.map Prod.fst := by
  intro l
  induction l with
  | nil => rfl
  | cons kv rest ih =>
    obtain ⟨k0, r0⟩ := kv
    by_cases h0 : k0 = k
    · simp only [updIfBetter, if_pos h0]
      by_cases hgt : lex4GT (ckTuple r) (ckTuple r0) = true
      · rw [if_pos hgt]
        simp
      · rw [if_neg hgt]
    · simp only [updIfBetter, if_neg h0]
      simpa using ih

/-- hasKey decides membership in the key sequence. -/
lemma hasKey_iff_mem (l : List ((Str × Str) × Row)) (k : Str × Str) :
    hasKey l k = true ↔ k ∈ l.map Prod.fst := by
  unfold hasKey
  rw [List.any_eq_true]
  constructor
  · rintro ⟨kv, hkv, hbeq⟩
    exact List.mem_map.mpr ⟨kv, hkv, by simpa using hbeq⟩
  · intro h
    obtain ⟨kv, hkv, heq⟩ := List.mem_map.mp h
    exact ⟨kv, hkv, by simpa using heq⟩

/-- Key sequence after one dedupe step. -/
lemma dedupeStep_keys (best : List ((Str × Str) × Row)) (r : Row) :
    (dedupeStep best r).map Prod.fst =
      if hasKey best (rowKey r) then best.map Prod.fst
      else best.map Prod.fst ++ [rowKey r] := by
  rw [dedupeStep_eq]
  by_cases h : hasKey best (rowKey r) = true
  · rw [if_pos h, if_pos h]
    exact updIfBetter_keys (rowKey r) r best
  · rw [if_neg h, if_neg h]
    simp

/-- The dedupe fold keeps the key sequence duplicate-free. -/
lemma foldl_dedupeStep_keys_nodup (rows : List Row) :
    ∀ best : List ((Str × Str) × Row), (best.map Prod.fst).Nodup →
      ((rows.foldl dedupeStep best).map Prod.fst).Nodup := by
  induction rows with
  | nil => intro best h; exact h
  | cons r rows ih =>
    intro best h
    simp only [List.foldl_cons]
    apply ih
    rw [dedupeStep_keys]
    split
    · exact h
    · next hk =>
      have : rowKey r ∉ best.map Prod.fst := fun hmem =>
        hk ((hasKey_iff_mem best (rowKey r)).mpr hmem)
      simp [List.nodup_append, h, this]

/-- In-place update preserves the well-formedness of the association list
when the new key is the new record's key. -/
lemma updIfBetter_wf (k : Str × Str) (r : Row) (hk : k = rowKey r) :
    ∀ l : List ((Str × Str) × Row), (∀ kv ∈ l, kv.1 = rowKey kv.2) →
      ∀ kv ∈ updIfBetter k r l, kv.1 = rowKey kv.2 := by
  intro l
  induction l with
  | nil => intro _ kv h; simp [updIfBetter] at h
  | cons kv0 rest ih =>
    intro hl kv hmem
    obtain ⟨k0, r0⟩ := kv0
    simp only [updIfBetter] at hmem
    have hl0 := hl (k0, r0) (by simp)
    have hlrest : ∀ kv ∈ rest, kv.1 = rowKey kv.2 := fun kv h => hl kv (by simp [h])
    by_cases h0 : k0 = k
    · rw [if_pos h0] at hmem
      by_cases hgt : lex4GT (ckTuple r) (ckTuple r0) = true
      · rw [if_pos hgt] at hmem
        rcases List.mem_cons.mp hmem with h | h
        · subst h; simpa [h0] using hk
        · exact hlrest kv h
      · rw [if_neg hgt] at hmem
        rcases List.mem_cons.mp hmem with h | h
        · subst h; simpa using hl0
        · exact hlrest kv h
    · rw [if_neg h0] at hmem
      rcases List.mem_cons.mp hmem with h | h
      · subst h; simpa using hl0
      · exact ih hlrest kv h

/-- Every entry produced by the dedupe fold pairs a record with its own
key. -/
lemma foldl_dedupeStep_wf (rows : List Row) :
    ∀ best : List ((Str × Str) × Row), (∀ kv ∈ best, kv.1 = rowKey kv.2) →
      ∀ kv ∈ rows.foldl dedupeStep best, kv.1 = rowKey kv.2 := by
  induction rows with
  | nil => intro best h; exact h
  | cons r rows ih =>
    intro best h
    simp only [List.foldl_cons]
    apply ih
    rw [dedupeStep_eq]
    by_cases hk : hasKey best (rowKey r) = true
    · rw [if_pos hk]
      exact updIfBetter_wf (rowKey r) r rfl best h
    · rw [if_neg hk]
      intro kv hmem
      rcases List.mem_append.mp hmem with hm | hm
      · exact h kv hm
      · simp only [List.mem_singleton] at hm
        simp [hm]

/-- On records with pairwise-distinct keys none of which is already present,
the dedupe fold just appends each record keyed by itself. -/
lemma foldl_dedupeStep_fresh (rows : List Row)
    (hp : rows.Pairwise (fun x y => rowKey x ≠ rowKey y)) :
    ∀ best : List ((Str × Str) × Row),
      (∀ x ∈ rows, rowKey x ∉ best.map Prod.fst) →
      rows.foldl dedupeStep best = best ++ rows.map (fun r => (rowKey r, r)) := by
  induction rows with
  | nil => intro best _; simp
  | cons r rows ih =>
    intro best hfresh
    have hk : hasKey best (rowKey r) = false := by
      rw [Bool.eq_false_iff]
      intro h
      exact hfresh r (by simp) ((hasKey_iff_mem best (rowKey r)).mp h)
    have hstep : dedupeStep best r = best ++ [(rowKey r, r)] := by
      rw [dedupeStep_eq, hk]
      simp
    have hrest : ∀ x ∈ rows, rowKey x ∉ (best ++ [(rowKey r, r)]).map Prod.fst := by
      intro x hx
      simp only [List.map_append, List.mem_append]
      rintro (h | h)
      · exact hfresh x (by simp [hx]) h
      · simp at h
        exact (List.pairwise_cons.mp hp).1 x hx h.symm
    simp only [List.foldl_cons, hstep]
    rw [ih (List.pairwise_cons.mp hp).2 _ hrest]
    simp

/-- C8: deduplication is idempotent — deduplicating an already-deduplicated
record list returns it unchanged. -/
theorem dedupe_idempotent (rows : List Row) :
    dedupeRows (dedupeRows rows) = dedupeRows rows := by
  set L := rows.foldl dedupeStep [] with hL
  have hnodup : (L.map Prod.fst).Nodup :=
    foldl_dedupeStep_keys_nodup rows [] (by simp)
  have hwf : ∀ kv ∈ L, kv.1 = rowKey kv.2 :=
    foldl_dedupeStep_wf rows [] (by simp)
  have hmapeq : (L.map Prod.snd).map rowKey = L.map Prod.fst := by
    rw [List.map_map]
    exact List.map_congr_left (fun kv hkv => (hwf kv hkv).symm)
  have hpair : (L.map Prod.snd).Pairwise (fun x y => rowKey x ≠ rowKey y) := by
    have := hmapeq ▸ hnodup
    exact (List.pairwise_map.mp this)
  have hout : dedupeRows rows = L.map Prod.snd := rfl
  rw [hout]
  unfold dedupeRows
  rw [foldl_dedupeStep_fresh (L.map Prod.snd) hpair []
    (fun x _ => by simp only [List.map_nil]; exact List.not_mem_nil _)]
  simp [List.map_map]

/-- The sort comparison is total. -/
lemma lex3Le_total (x y : Int × Int × Int) : lex3Le x y ∨ lex3Le y x := by
  unfold lex3Le
  omega

/-- The sort comparison is transitive. -/
lemma lex3Le_trans {x y z : Int × Int × Int} :
    lex3Le x y → lex3Le y z → lex3Le x z := by
  unfold lex3Le
  omega

instance : IsTotal SJob keyLE := ⟨fun a b => lex3Le_total (sortKeyOf a) (sortKeyOf b)⟩

instance : IsTrans SJob keyLE := ⟨fun _ _ _ => lex3Le_trans⟩

/-- The embedded sort key realizes the claim's ordering: score descending,
verifiable posted date above unverifiable, newer date ordinal first. -/
lemma keyLE_imp_claim_order (a b : SJob) (h : keyLE a b) :
    b.score < a.score ∨ (a.score = b.score ∧
      (sortVer b < sortVer a ∨ (sortVer a = sortVer b ∧
        dateOrd b.row.posted ≤ dateOrd a.row.posted))) := by
  unfold keyLE lex3Le sortKeyOf at h
  dsimp only at h
  omega

/-- C6: the ranker's output is the first maxFinal records of the fully
sorted collection (truncation strictly after sorting), the sorted collection
is a permutation of the input, the output length is min(maxFinal, input
size), and the sorted collection is ordered by relevance score descending,
then verifiable (non-"Unverified") posted date above unverifiable, then
newer posted-date ordinal first. -/
theorem ranker_orders_and_truncates (rs : List SJob) (n : Nat) :
    rankRows rs n = (sortRows rs).take n ∧
    (sortRows rs).Perm rs ∧
    (rankRows rs n).length = min n rs.length ∧
    List.Pairwise (fun a b : SJob =>
      b.score < a.score ∨ (a.score = b.score ∧
        (sortVer b < sortVer a ∨ (sortVer a = sortVer b ∧
          dateOrd b.row.posted ≤ dateOrd a.row.posted)))) (sortRows rs) := by
  refine ⟨rfl, List.perm_insertionSort keyLE rs, ?_, ?_⟩
  · simp [rankRows, sortRows, List.length_take, List.length_insertionSort]
  · exact (List.sorted_insertionSort keyLE rs).imp
      (fun h => keyLE_imp_claim_order _ _ h)

/-- The uncapped dedupe distributes over an already-produced accumulator. -/
lemma ddK_acc (xs : List Str) :
    ∀ (out1 out2 seen : List Str),
      ddK xs (out1 ++ out2) seen = out1 ++ ddK xs out2 seen := by
  induction xs with
  | nil => intro out1 out2 seen; rfl
  | cons x xs ih =>
    intro out1 out2 seen
    simp only [ddK]
    by_cases h : (!(normS x).isEmpty && !(seen.contains (normS x))) = true
    · rw [if_pos h, if_pos h, List.append_assoc]
      exact ih out1 (out2 ++ [x]) _
    · rw [if_neg h, if_neg h]
      exact ih out1 out2 seen

/-- The uncapped dedupe splits off its accumulator. -/
lemma ddK_split (xs out seen : List Str) :
    ddK xs out seen = out ++ ddK xs [] seen := by
  have h := ddK_acc xs out [] seen
  simpa using h

/-- Below the cap, the capped dedupe of runner.py computes the take of the
uncapped dedupe of keywords.py. -/
lemma ddCap_eq_take (cap : Nat) (xs : List Str) :
    ∀ out seen, out.length < cap →
      ddCap cap xs out seen = (ddK xs out seen).take cap := by
  induction xs with
  | nil =>
    intro out seen h
    rw [ddCap, ddK, List.take_of_length_le (Nat.le_of_lt h)]
  | cons x xs ih =>
    intro out seen h
    simp only [ddCap, ddK]
    by_cases hk : (!(normS x).isEmpty && !(seen.contains (normS x))) = true
    · rw [if_pos hk, if_pos hk, if_pos hk]
      by_cases hcap : cap ≤ (out ++ [x]).length
      · rw [if_pos hcap]
        have hlen : (out ++ [x]).length = cap := by
          simp at hcap ⊢
          omega
        rw [ddK_split xs (out ++ [x]) _, ← hlen, List.take_left]
      · rw [if_neg hcap]
        exact ih _ _ (by simp at hcap ⊢; omega)
    · rw [if_neg hk, if_neg hk, if_neg hk]
      by_cases hcap : cap ≤ out.length
      · omega
      · rw [if_neg hcap]
        exact ih _ _ (by omega)

/-- Every record kept by the uncapped dedupe has a nonempty normalization,
and kept records have pairwise distinct normalizations. -/
lemma ddK_inv (xs : List Str) :
    ∀ out seen,
      (∀ x ∈ out, (normS x).isEmpty = false) →
      List.Pairwise (fun a b => normS a ≠ normS b) out →
      (∀ x ∈ out, normS x ∈ seen) →
      (∀ x ∈ ddK xs out seen, (normS x).isEmpty = false) ∧
      List.Pairwise (fun a b => normS a ≠ normS b) (ddK xs out seen) := by
  induction xs with
  | nil => intro out seen h1 h2 _; exact ⟨h1, h2⟩
  | cons x xs ih =>
    intro out seen h1 h2 h3
    simp only [ddK]
    by_cases hk : (!(normS x).isEmpty && !(seen.contains (normS x))) = true
    · rw [if_pos hk]
      rw [Bool.and_eq_true, Bool.not_eq_true', Bool.not_eq_true'] at hk
      have hxseen : normS x ∉ seen := by
        intro hmem
        rw [(by simp [hmem] : seen.contains (normS x) = true)] at hk
        exact absurd hk.2 (by simp)
      apply ih
      · intro y hy
        rcases List.mem_append.mp hy with hy | hy
        · exact h1 y hy
        · simp only [List.mem_singleton] at hy
          simpa [hy] using hk.1
      · rw [List.pairwise_append]
        refine ⟨h2, by simp, ?_⟩
        intro a ha b hb
        simp only [List.mem_singleton] at hb
        subst hb
        intro hEq
        exact hxseen (hEq ▸ h3 a ha)
      · intro y hy
        rcases List.mem_append.mp hy with hy | hy
        · exact List.mem_append.mpr (Or.inl (h3 y hy))
        · simp only [List.mem_singleton] at hy
          subst hy
          exact List.mem_append.mpr (Or.inr (by simp))
    · rw [if_neg hk]
      exact ih out seen h1 h2 h3

/-- The uncapped dedupe is the identity on lists whose entries have
nonempty, pairwise-distinct normalizations not yet seen. -/
lemma ddK_fresh (xs : List Str) :
    (∀ x ∈ xs, (normS x).isEmpty = false) →
    List.Pairwise (fun a b => normS a ≠ normS b) xs →
    ∀ out seen, (∀ x ∈ xs, normS x ∉ seen) →
      ddK xs out seen = out ++ xs := by
  induction xs with
  | nil => intro _ _ out seen _; simp [ddK]
  | cons x xs ih =>
    intro h1 h2 out seen h3
    have hx1 : (normS x).isEmpty = false := h1 x (by simp)
    have hxmem : normS x ∉ seen := h3 x (List.mem_cons_self x xs)
    have hx3 : seen.contains (normS x) = false := by simpa using hxmem
    have hk : (!(normS x).isEmpty && !(seen.contains (normS x))) = true := by
      simp [hx1, hx3, hxmem]
    simp only [ddK, if_pos hk]
    rw [ih (fun y hy => h1 y (by simp [hy])) (List.pairwise_cons.mp h2).2 _ _ ?fresh]
    · simp
    case fresh =>
      intro y hy
      simp only [List.mem_append, List.mem_singleton]
      rintro (hmem | hmem)
      · exact h3 y (by simp [hy]) hmem
      · exact (List.pairwise_cons.mp h2).1 y hy hmem.symm

/-- The uncapped dedupe of keywords.py is idempotent. -/
lemma dedupeK_idem (l : List Str) : dedupeK (dedupeK l) = dedupeK l := by
  obtain ⟨h1, h2⟩ := ddK_inv l [] [] (by simp) (by simp) (by simp)
  have h := ddK_fresh (dedupeK l) h1 h2 [] [] (by simp)
  simpa using h

/-- C10 counterexample: on the target role "procurement" the two builders
return different exclude-keyword lists (the curated entries appear in a
different order in runner.py line 194 and keywords.py line 97), so the
KeywordSets are not pointwise equal. -/
theorem keyword_builders_differ_procurement :
    (build_keyword_sets_runner ("procurement".toList)).exclude_keywords ≠
      (build_keyword_sets_keywords ("procurement".toList)).exclude_keywords := by
  decide

/-- C10 (amended): the keyword expander embedded in runner.py returns the
same KeywordSets as keywords.py for every target role whose normalized form
does not contain "procurement" (where the two files order the exclude
keywords differently) and does not contain both "civil" and "engineer" (a
curated branch present only in keywords.py); in particular the two builders
agree on the receptionist, community-partnership and generic-fallback
branches. -/
theorem keyword_builders_agree (tr : Str)
    (hp : containsSub ("procurement".toList) (normS (pyStrip tr)) = false)
    (hce : (containsSub ("civil".toList) (normS (pyStrip tr))
            && containsSub ("engineer".toList) (normS (pyStrip tr))) = false) :
    build_keyword_sets_runner tr = build_keyword_sets_keywords tr := by
  have h10 : ∀ l : List Str, dedupeCap l 10 = (dedupeK l).take 10 := by
    intro l
    exact ddCap_eq_take 10 l [] [] (by simp)
  have h20 : ∀ l : List Str, dedupeCap l 20 = (dedupeK l).take 20 := by
    intro l
    exact ddCap_eq_take 20 l [] [] (by simp)
  unfold build_keyword_sets_runner build_keyword_sets_keywords
  dsimp only
  rw [hp, hce]
  simp only [Bool.false_eq_true, if_false, h10, h20, dedupeK_idem]

/-- Witness for C10 (amended): at the role "receptionist" both side
conditions hold and the builders agree. -/
theorem keyword_builders_agree_witness :
    containsSub ("procurement".toList) (normS (pyStrip ("receptionist".toList))) = false ∧
    (containsSub ("civil".toList) (normS (pyStrip ("receptionist".toList)))
      && containsSub ("engineer".toList) (normS (pyStrip ("receptionist".toList)))) = false ∧
    build_keyword_sets_runner ("receptionist".toList) =
      build_keyword_sets_keywords ("receptionist".toList) :=
  ⟨by decide, by decide, keyword_builders_agree ("receptionist".toList) (by decide) (by decide)⟩

end SGJE
